import Mathlib

/-!
Verification of the graph-workflow tutorial repository
(`kaggle-fruite-tutorial/example_01.py`, `example_02.py`).

The domain functions (`input_fruit`, `confirm_fruit`, `error`,
`review_fruit`, `continue_next`, `review_decision`) and the two graph
definitions are translated directly from the Python source.  The engine
executing them (graph state merging and the executor loop) lives in a
third-party library that is not part of the repository's files, so it is
modelled from the specification's executor contract.
-/

namespace FruitGraph

/-- The running state: an ordered mapping from field name to string value.
An absent key means the field is logically unset (the source's
`Optional` fields of `GraphState`). -/
def GState : Type := List (String × String)

instance : DecidableEq GState := by
  unfold GState
  infer_instance

/-- First value bound to key `k`, if any (the mapping view of the list). -/
def lookupKey {α : Type} : List (String × α) → String → Option α
  | [], _ => none
  | kv :: rest, k => if kv.1 = k then some kv.2 else lookupKey rest k

/-- Modelled from the spec: the engine's state merge (the third-party
library's channel update is not in the repository's files).  For every key
in the node's returned part, the running state's value for that key is
overwritten; keys not mentioned are untouched; keys new to the running
state are appended. -/
def merge (s p : GState) : GState :=
  (s.map (fun kv => ((kv.1 : String), (lookupKey p kv.1).getD kv.2)))
    ++ p.filter (fun kv => (lookupKey s kv.1).isNone)

/-- Modelled from the spec: the reserved exit marker END (the third-party
library's sentinel is not in the repository's files). -/
def ENDName : String := "END"

/-- Modelled from the spec: an outgoing connection of a node — either a
static edge to a fixed destination, or a conditional edge holding a router
function and a route-key-to-destination map. -/
inductive Edge : Type
  | static (dest : String)
  | conditional (router : GState → String) (routeMap : List (String × String))

/-- Modelled from the spec: the immutable compiled graph — node name to
transition function, node name to outgoing edge, and the entry node (the
single destination of START's edge).  A transition function returning
`none` models an exception raised inside the node (e.g. the source's
`state['fruit']` lookup on an unset field), which the executor propagates. -/
structure CompiledGraph : Type where
  nodes : List (String × (GState → Option GState))
  edges : List (String × Edge)
  entry : String

/-- Modelled from the spec: the outcome of one invocation.  `done` carries
the final accumulated state; `nodeFail` is an exception escaping a node
function; `unmappedRoute` is the spec's UnmappedRouteError; `missingNode`
and `missingEdge` are dangling references the compile-time validation is
meant to exclude; `fuelOut` means the step bound ran out before END. -/
inductive ExecResult : Type
  | done (s : GState)
  | nodeFail
  | unmappedRoute
  | missingNode
  | missingEdge
  | fuelOut
deriving DecidableEq

/-- `true` exactly on `done`. -/
def ExecResult.isDone : ExecResult → Bool
  | .done _ => true
  | _ => false

/-- `true` exactly on `unmappedRoute`. -/
def ExecResult.isUnmappedRoute : ExecResult → Bool
  | .unmappedRoute => true
  | _ => false

/-- An invocation's outcome together with the list of nodes executed, in
order (the resolved path). -/
structure ExecOut : Type where
  res : ExecResult
  visited : List String

/-- Modelled from the spec: the executor loop from a current node.  If the
current node is END, return the running state; otherwise invoke the node's
transition function, merge the part into the running state, resolve the
next node by the node's outgoing edge (a conditional edge's router runs on
the post-merge state), and continue.  `fuel` bounds the number of steps so
the loop is a total function; a cycle that never reaches END exhausts it. -/
def runFrom (g : CompiledGraph) : Nat → String → GState → List String → ExecOut
  | 0, _, _, visited => ⟨ExecResult.fuelOut, visited⟩
  | fuel + 1, cur, s, visited =>
    if cur = ENDName then ⟨ExecResult.done s, visited⟩
    else
      match lookupKey g.nodes cur with
      | none => ⟨ExecResult.missingNode, visited⟩
      | some fn =>
        match fn s with
        | none => ⟨ExecResult.nodeFail, visited ++ [cur]⟩
        | some p =>
          match lookupKey g.edges cur with
          | none => ⟨ExecResult.missingEdge, visited ++ [cur]⟩
          | some (Edge.static d) => runFrom g fuel d (merge s p) (visited ++ [cur])
          | some (Edge.conditional r m) =>
              match lookupKey m (r (merge s p)) with
              | none => ⟨ExecResult.unmappedRoute, visited ++ [cur]⟩
              | some d => runFrom g fuel d (merge s p) (visited ++ [cur])

/-- Resolving a conditional edge once the route key has been computed —
look the key up in the route map; an unmapped key is the runtime routing
error, a mapped key continues the loop at the destination.  This is
exactly the conditional branch of `runFrom`. -/
def condStep (g : CompiledGraph) (fuel : Nat) (routeMap : List (String × String))
    (key : String) (s : GState) (visited : List String) : ExecOut :=
  match lookupKey routeMap key with
  | none => ⟨ExecResult.unmappedRoute, visited⟩
  | some d => runFrom g fuel d s visited

/-- Modelled from the spec: one invocation of a compiled graph — run the
executor loop from the entry node on the initial state. -/
def invoke (g : CompiledGraph) (fuel : Nat) (init : GState) : ExecResult :=
  (runFrom g fuel g.entry init []).res

/-- The path of node names an invocation executed, in order. -/
def invokePath (g : CompiledGraph) (fuel : Nat) (init : GState) : List String :=
  (runFrom g fuel g.entry init []).visited

/-- The invocation reaches END and returns a final state, for some fuel. -/
def Terminates (g : CompiledGraph) (init : GState) : Prop :=
  ∃ fuel s, invoke g fuel init = ExecResult.done s

/-- The possible destinations of an edge, as written in the graph. -/
def Edge.targets : Edge → List String
  | .static d => [d]
  | .conditional _ m => m.map Prod.snd

/-- The possible next nodes after `n`, as written in the graph. -/
def successors (g : CompiledGraph) (n : String) : List String :=
  match lookupKey g.edges n with
  | none => []
  | some e => e.targets

/-- END is reachable from `n` along edges of the graph (following any
route-map destination of a conditional edge). -/
inductive ReachesEnd (g : CompiledGraph) : String → Prop
  | atEnd : ReachesEnd g ENDName
  | step (n d : String) (hd : d ∈ successors g n) (h : ReachesEnd g d) :
      ReachesEnd g n

/-- Modelled from the spec: big-step execution as a relation.
`Exec g cur s t` holds when the executor loop, started at node `cur` with
running state `s`, reaches END with final state `t`. -/
inductive Exec (g : CompiledGraph) : String → GState → GState → Prop
  | atEnd (s : GState) : Exec g ENDName s s
  | stepStatic (cur : String) (s : GState) (fn : GState → Option GState)
      (p : GState) (d : String) (t : GState)
      (hcur : cur ≠ ENDName)
      (hn : lookupKey g.nodes cur = some fn)
      (hp : fn s = some p)
      (he : lookupKey g.edges cur = some (Edge.static d))
      (next : Exec g d (merge s p) t) : Exec g cur s t
  | stepCond (cur : String) (s : GState) (fn : GState → Option GState)
      (p : GState) (r : GState → String) (m : List (String × String))
      (d : String) (t : GState)
      (hcur : cur ≠ ENDName)
      (hn : lookupKey g.nodes cur = some fn)
      (hp : fn s = some p)
      (he : lookupKey g.edges cur = some (Edge.conditional r m))
      (hroute : lookupKey m (r (merge s p)) = some d)
      (next : Exec g d (merge s p) t) : Exec g cur s t

/-- Python's `str.lower()` on the inputs in play: lower-case every
character. -/
def pyLower (s : String) : String := String.mk (s.data.map Char.toLower)

/-- Drop leading whitespace characters from a character list. -/
def dropLeadingSpaces : List Char → List Char
  | [] => []
  | c :: cs => if c.isWhitespace then dropLeadingSpaces cs else c :: cs

/-- Python's `str.strip()`: remove leading and trailing whitespace. -/
def pyStrip (s : String) : String :=
  String.mk ((dropLeadingSpaces ((dropLeadingSpaces s.data).reverse)).reverse)

namespace Example01

/-- `example_01.input_fruit`: normalize `init_input` (absent reads as the
empty string, then strip and lower-case) and return `{fruit: input}` when
it is a known fruit, `{fruit: "error"}` otherwise. -/
def input_fruit (state : GState) : Option GState :=
  let init_input := pyLower (pyStrip ((lookupKey state "init_input").getD ""))
  if init_input ∉ (["apple", "banana", "cherry"] : List String) then
    some [("fruit", "error")]
  else
    some [("fruit", init_input)]

/-- `example_01.confirm_fruit`: format the confirmation message from the
`fruit` field.  The source indexes `state['fruit']` directly, which raises
when the field is unset — modelled by `none`. -/
def confirm_fruit (state : GState) : Option GState :=
  match lookupKey state "fruit" with
  | none => none
  | some f => some [("final_result", "You selected " ++ f ++ ", which is a valid fruit.")]

/-- `example_01.error`: set the final result to the error sentinel. -/
def error (_state : GState) : Option GState :=
  some [("final_result", "error")]

/-- `example_01.continue_next`: route on the post-`input_fruit` state —
anything but the `"error"` sentinel in `fruit` goes to `confirm_fruit`.
The source reads `state.get("fruit")`, so an unset field (Python `None`)
also differs from `"error"` and routes to `confirm_fruit`. -/
def continue_next (state : GState) : String :=
  if lookupKey state "fruit" ≠ some "error" then "to_confirm_fruit"
  else "to_error"

/-- The compiled graph of `example_01.py`: nodes `input_fruit`,
`confirm_fruit`, `error`; entry `input_fruit` (the edge from START);
static edges `confirm_fruit → END` and `error → END`; one conditional
edge from `input_fruit` routed by `continue_next`. -/
def app : CompiledGraph where
  nodes := [("input_fruit", input_fruit),
            ("confirm_fruit", confirm_fruit),
            ("error", error)]
  edges := [("confirm_fruit", Edge.static ENDName),
            ("error", Edge.static ENDName),
            ("input_fruit",
              Edge.conditional continue_next
                [("to_confirm_fruit", "confirm_fruit"), ("to_error", "error")])]
  entry := "input_fruit"

end Example01

namespace Example02

/-- `example_02.input_fruit`: same body as in `example_01.py`. -/
def input_fruit (state : GState) : Option GState :=
  let init_input := pyLower (pyStrip ((lookupKey state "init_input").getD ""))
  if init_input ∉ (["apple", "banana", "cherry"] : List String) then
    some [("fruit", "error")]
  else
    some [("fruit", init_input)]

/-- `example_02.review_fruit`: return the `fruit` field unchanged.  The
source indexes `state['fruit']`, which raises when the field is unset —
modelled by `none`. -/
def review_fruit (state : GState) : Option GState :=
  match lookupKey state "fruit" with
  | none => none
  | some f => some [("fruit", f)]

/-- `example_02.confirm_fruit`: same body as in `example_01.py`. -/
def confirm_fruit (state : GState) : Option GState :=
  match lookupKey state "fruit" with
  | none => none
  | some f => some [("final_result", "You selected " ++ f ++ ", which is a valid fruit.")]

/-- `example_02.review_decision`: route on `user_confirmation` — exactly
`"yes"` goes to `confirm_fruit`, anything else (including unset) to
`error`. -/
def review_decision (state : GState) : String :=
  if lookupKey state "user_confirmation" = some "yes" then "to_confirm_fruit"
  else "to_error"

/-- `example_02.continue_next`: like example 01's, but a valid fruit goes
to `review_fruit`. -/
def continue_next (state : GState) : String :=
  if lookupKey state "fruit" ≠ some "error" then "to_review_fruit"
  else "to_error"

/-- `example_02.error`: set the final result to the error sentinel. -/
def error (_state : GState) : Option GState :=
  some [("final_result", "error")]

/-- The compiled graph of `example_02.py`: adds `review_fruit` and a
second conditional edge routed by `review_decision`; entry `input_fruit`
(via `set_entry_point`). -/
def app : CompiledGraph where
  nodes := [("input_fruit", input_fruit),
            ("review_fruit", review_fruit),
            ("confirm_fruit", confirm_fruit),
            ("error", error)]
  edges := [("confirm_fruit", Edge.static ENDName),
            ("error", Edge.static ENDName),
            ("input_fruit",
              Edge.conditional continue_next
                [("to_review_fruit", "review_fruit"), ("to_error", "error")]),
            ("review_fruit",
              Edge.conditional review_decision
                [("to_confirm_fruit", "confirm_fruit"), ("to_error", "error")])]
  entry := "input_fruit"

end Example02

/-- A one-node graph used to probe the executor: node `"a"` returns the
empty part, and its router always picks the `"loop"` key, whose
destination is `"a"` again.  The route map also maps `"out"` to END, so
END is reachable from every node of the graph, yet no invocation ever
reaches it. -/
def loopNode (_state : GState) : Option GState := some []

/-- The router of `loopGraph`: always the `"loop"` key. -/
def loopRouter (_state : GState) : String := "loop"

/-- The probe graph itself: `a` loops to `a` forever although the route
map offers a path to END. -/
def loopGraph : CompiledGraph where
  nodes := [("a", loopNode)]
  edges := [("a", Edge.conditional loopRouter [("loop", "a"), ("out", ENDName)])]
  entry := "a"

theorem lookupKey_map_keys (s : List (String × String)) (k : String)
    (h : String → String → String) :
    lookupKey (s.map (fun kv => ((kv.1 : String), h kv.1 kv.2))) k
      = (lookupKey s k).map (h k) := by
  induction s with
  | nil => rfl
  | cons kv rest ih =>
      by_cases hk : kv.1 = k
      · subst hk
        simp [lookupKey, List.map]
      · simp [lookupKey, List.map, hk, ih]

theorem lookupKey_append {α : Type} (l1 l2 : List (String × α)) (k : String) :
    lookupKey (l1 ++ l2) k
      = match lookupKey l1 k with
        | some v => some v
        | none => lookupKey l2 k := by
  induction l1 with
  | nil => rfl
  | cons kv rest ih =>
      by_cases hk : kv.1 = k
      · simp [lookupKey, hk]
      · simp [lookupKey, hk, ih]

theorem lookupKey_filter {α : Type} (p : List (String × α))
    (q : String × α → Bool) (k : String) (hq : ∀ v, q (k, v) = true) :
    lookupKey (p.filter q) k = lookupKey p k := by
  induction p with
  | nil => rfl
  | cons kv rest ih =>
      by_cases hk : kv.1 = k
      · have hkv : kv = (k, kv.2) := by
          cases kv
          simp_all
        rw [hkv]
        simp [List.filter, hq kv.2, lookupKey]
      · by_cases hqkv : q kv = true
        · simp [List.filter, hqkv, lookupKey, hk, ih]
        · simp [List.filter, hqkv, lookupKey, hk, ih]

/-- The merged state, read through any key: the part's binding wins when
present, otherwise the previous binding survives. -/
theorem lookupKey_merge (s p : GState) (k : String) :
    lookupKey (merge s p) k
      = match lookupKey p k with
        | some v => some v
        | none => lookupKey s k := by
  unfold merge
  rw [lookupKey_append]
  rw [lookupKey_map_keys s k (fun k0 v0 => (lookupKey p k0).getD v0)]
  cases hs : lookupKey s k with
  | some v =>
      cases hp : lookupKey p k <;> simp [hp]
  | none =>
      rw [lookupKey_filter p _ k (by simp [hs])]
      cases hp : lookupKey p k <;> simp

/-- C1: invoking the compiled example 01 graph on `{init_input: "apple"}`
reaches a final state containing `fruit = "apple"` and
`final_result = "You selected apple, which is a valid fruit."`. -/
theorem c1_example01_apple :
    ∃ s, invoke Example01.app 10 [("init_input", "apple")] = ExecResult.done s ∧
      lookupKey s "fruit" = some "apple" ∧
      lookupKey s "final_result" = some "You selected apple, which is a valid fruit." :=
  ⟨[("init_input", "apple"), ("fruit", "apple"),
    ("final_result", "You selected apple, which is a valid fruit.")],
   by decide, by decide, by decide⟩

/-- C2 counterexample: invoking example 01 on `{init_input: "mango"}`
yields a final state that still binds `init_input` to `"mango"`, whereas
the claimed exact two-field mapping `{fruit: "error",
final_result: "error"}` has no binding for `init_input` — so the final
state is not exactly that mapping. -/
theorem c2_counterexample :
    invoke Example01.app 10 [("init_input", "mango")]
      = ExecResult.done
          [("init_input", "mango"), ("fruit", "error"), ("final_result", "error")] ∧
    lookupKey ([("init_input", "mango"), ("fruit", "error"), ("final_result", "error")] : GState)
        "init_input" = some "mango" ∧
    lookupKey ([("fruit", "error"), ("final_result", "error")] : GState) "init_input" = none :=
  ⟨by decide, by decide, by decide⟩

/-- C2 (amended): invoking example 01 on `{init_input: "mango"}` routes to
the error node and returns a final state containing `fruit = "error"` and
`final_result = "error"` (and still `init_input = "mango"`); the final
state is these three bindings, not the two-field mapping alone. -/
theorem c2_example01_mango :
    ∃ s, invoke Example01.app 10 [("init_input", "mango")] = ExecResult.done s ∧
      lookupKey s "fruit" = some "error" ∧
      lookupKey s "final_result" = some "error" ∧
      lookupKey s "init_input" = some "mango" :=
  ⟨[("init_input", "mango"), ("fruit", "error"), ("final_result", "error")],
   by decide, by decide, by decide, by decide⟩

/-- C3: invoking the compiled example 02 graph on
`{init_input: "apple", user_confirmation: "no"}` executes the path
`input_fruit → review_fruit → error` and ends with
`final_result = "error"`. -/
theorem c3_example02_reject :
    invokePath Example02.app 10 [("init_input", "apple"), ("user_confirmation", "no")]
      = ["input_fruit", "review_fruit", "error"] ∧
    ∃ s, invoke Example02.app 10 [("init_input", "apple"), ("user_confirmation", "no")]
        = ExecResult.done s ∧
      lookupKey s "final_result" = some "error" :=
  ⟨by decide,
   ⟨[("init_input", "apple"), ("user_confirmation", "no"), ("fruit", "apple"),
     ("final_result", "error")],
    by decide, by decide⟩⟩

/-- C10: `input_fruit` (identical in both examples) lower-cases and strips
its `init_input` (an absent field reads as the empty string), returns
`{fruit: normalized}` when the normalized form is `"apple"`, `"banana"` or
`"cherry"`, and `{fruit: "error"}` otherwise; in particular an absent
`init_input` yields `{fruit: "error"}` without raising, and
`"  Apple "` is accepted as `"apple"`. -/
theorem c10_input_fruit_normalizes (s : GState) :
    (Example01.input_fruit s =
      (if pyLower (pyStrip ((lookupKey s "init_input").getD ""))
            ∈ (["apple", "banana", "cherry"] : List String) then
        some [("fruit", pyLower (pyStrip ((lookupKey s "init_input").getD "")))]
      else
        some [("fruit", "error")])) ∧
    Example02.input_fruit s = Example01.input_fruit s ∧
    Example01.input_fruit [] = some [("fruit", "error")] ∧
    Example01.input_fruit [("init_input", "  Apple ")] = some [("fruit", "apple")] := by
  refine ⟨?_, ?_, by decide, by decide⟩
  · unfold Example01.input_fruit
    by_cases h : pyLower (pyStrip ((lookupKey s "init_input").getD ""))
        ∈ (["apple", "banana", "cherry"] : List String) <;>
      simp [h]
  · unfold Example01.input_fruit Example02.input_fruit
    rfl

/-- C4: merging a node's part into the running state is key-wise
overwrite — a key bound in the part takes its new value in the merged
state, and a key absent from the part keeps exactly its previous value. -/
theorem c4_merge_keywise (s p : GState) (k : String) :
    (∀ v, lookupKey p k = some v → lookupKey (merge s p) k = some v) ∧
    (lookupKey p k = none → lookupKey (merge s p) k = lookupKey s k) := by
  constructor
  · intro v hv
    rw [lookupKey_merge, hv]
  · intro hv
    rw [lookupKey_merge, hv]

/-- C4 witness: merging `{a: 1}` into `{a: 0, b: 2}` rebinds `a` to `1`
and leaves `b` at its previous value, and merging a part that only sets
`final_result` leaves a previously set `fruit` field intact. -/
theorem c4_merge_keywise_witness :
    lookupKey (merge [("a", "0"), ("b", "2")] [("a", "1")]) "a" = some "1" ∧
    lookupKey (merge [("a", "0"), ("b", "2")] [("a", "1")]) "b"
      = lookupKey ([("a", "0"), ("b", "2")] : GState) "b" ∧
    lookupKey (merge [("fruit", "apple")] [("final_result", "error")]) "fruit"
      = lookupKey ([("fruit", "apple")] : GState) "fruit" :=
  ⟨(c4_merge_keywise [("a", "0"), ("b", "2")] [("a", "1")] "a").1 "1" (by decide),
   (c4_merge_keywise [("a", "0"), ("b", "2")] [("a", "1")] "b").2 (by decide),
   (c4_merge_keywise [("fruit", "apple")] [("final_result", "error")] "fruit").2 (by decide)⟩

/-- C5: when a node with a conditional outgoing edge finishes, the router
is applied to the post-merge running state `merge s p` — the state the
executor continues with — never to the pre-merge state `s`. -/
theorem c5_router_post_merge (g : CompiledGraph) (fuel : Nat) (cur : String)
    (s : GState) (visited : List String) (fn : GState → Option GState)
    (r : GState → String) (m : List (String × String)) (p : GState)
    (hcur : ¬ cur = ENDName)
    (hn : lookupKey g.nodes cur = some fn)
    (hp : fn s = some p)
    (he : lookupKey g.edges cur = some (Edge.conditional r m)) :
    runFrom g (fuel + 1) cur s visited
      = condStep g fuel m (r (merge s p)) (merge s p) (visited ++ [cur]) := by
  simp only [runFrom, if_neg hcur, hn, hp, he, condStep]

/-- C5 witness: in example 01 with initial state `{init_input: "apple"}`,
the step at `input_fruit` routes by `continue_next` applied to the merged
state that already holds the `fruit` field `input_fruit` just set. -/
theorem c5_router_post_merge_witness :
    runFrom Example01.app 4 "input_fruit" [("init_input", "apple")] []
      = condStep Example01.app 3
          [("to_confirm_fruit", "confirm_fruit"), ("to_error", "error")]
          (Example01.continue_next (merge [("init_input", "apple")] [("fruit", "apple")]))
          (merge [("init_input", "apple")] [("fruit", "apple")]) ["input_fruit"] :=
  c5_router_post_merge Example01.app 3 "input_fruit" [("init_input", "apple")] []
    Example01.input_fruit Example01.continue_next
    [("to_confirm_fruit", "confirm_fruit"), ("to_error", "error")]
    [("fruit", "apple")] (by decide) rfl (by decide) rfl

/-- C7: on any state whose `fruit` field is set, `review_fruit` returns
exactly the part `{fruit: that value}`, and merging that part changes no
binding of the running state. -/
theorem c7_review_fruit_identity (s : GState) (v : String)
    (h : lookupKey s "fruit" = some v) :
    Example02.review_fruit s = some [("fruit", v)] ∧
    ∀ k, lookupKey (merge s [("fruit", v)]) k = lookupKey s k := by
  constructor
  · unfold Example02.review_fruit
    rw [h]
  · intro k
    rw [lookupKey_merge]
    by_cases hk : ("fruit" : String) = k
    · subst hk
      simp [lookupKey, h]
    · simp [lookupKey, hk]

/-- C7 witness: on the state `{fruit: "apple"}`, `review_fruit` returns
`{fruit: "apple"}` and merging it leaves the `fruit` binding unchanged. -/
theorem c7_review_fruit_identity_witness :
    Example02.review_fruit [("fruit", "apple")] = some [("fruit", "apple")] ∧
    lookupKey (merge [("fruit", "apple")] [("fruit", "apple")]) "fruit"
      = lookupKey ([("fruit", "apple")] : GState) "fruit" :=
  ⟨(c7_review_fruit_identity [("fruit", "apple")] "apple" (by decide)).1,
   (c7_review_fruit_identity [("fruit", "apple")] "apple" (by decide)).2 "fruit"⟩

theorem example01_cond_edges (cur : String) (r : GState → String)
    (m : List (String × String))
    (h : lookupKey Example01.app.edges cur = some (Edge.conditional r m)) :
    r = Example01.continue_next ∧
      m = [("to_confirm_fruit", "confirm_fruit"), ("to_error", "error")] := by
  simp only [Example01.app, lookupKey] at h
  split_ifs at h <;> simp_all

theorem example02_cond_edges (cur : String) (r : GState → String)
    (m : List (String × String))
    (h : lookupKey Example02.app.edges cur = some (Edge.conditional r m)) :
    (r = Example02.continue_next ∧
      m = [("to_review_fruit", "review_fruit"), ("to_error", "error")]) ∨
    (r = Example02.review_decision ∧
      m = [("to_confirm_fruit", "confirm_fruit"), ("to_error", "error")]) := by
  simp only [Example02.app, lookupKey] at h
  split_ifs at h <;> simp_all

theorem continue_next01_covered (s : GState) :
    (lookupKey [("to_confirm_fruit", "confirm_fruit"), ("to_error", "error")]
      (Example01.continue_next s)).isSome = true := by
  unfold Example01.continue_next
  by_cases h : lookupKey s "fruit" ≠ some "error" <;> simp [h, lookupKey]

theorem continue_next02_covered (s : GState) :
    (lookupKey [("to_review_fruit", "review_fruit"), ("to_error", "error")]
      (Example02.continue_next s)).isSome = true := by
  unfold Example02.continue_next
  by_cases h : lookupKey s "fruit" ≠ some "error" <;> simp [h, lookupKey]

theorem review_decision_covered (s : GState) :
    (lookupKey [("to_confirm_fruit", "confirm_fruit"), ("to_error", "error")]
      (Example02.review_decision s)).isSome = true := by
  unfold Example02.review_decision
  by_cases h : lookupKey s "user_confirmation" = some "yes" <;> simp [h, lookupKey]

theorem example01_no_unmapped (fuel : Nat) :
    ∀ (cur : String) (s : GState) (visited : List String),
      ((runFrom Example01.app fuel cur s visited).res).isUnmappedRoute = false := by
  induction fuel with
  | zero => intro cur s visited; rfl
  | succ fuel ih =>
      intro cur s visited
      rw [runFrom]
      by_cases hcur : cur = ENDName
      · simp [hcur, ExecResult.isUnmappedRoute]
      · rw [if_neg hcur]
        split
        next => rfl
        next fn hn =>
          split
          next => rfl
          next p hp =>
            split
            next => rfl
            next d he => exact ih d (merge s p) (visited ++ [cur])
            next r m he =>
              obtain ⟨hr, hm⟩ := example01_cond_edges cur r m he
              subst hr
              subst hm
              split
              next hroute =>
                have hcov := continue_next01_covered (merge s p)
                rw [hroute] at hcov
                cases hcov
              next d hroute => exact ih d (merge s p) (visited ++ [cur])

theorem example02_no_unmapped (fuel : Nat) :
    ∀ (cur : String) (s : GState) (visited : List String),
      ((runFrom Example02.app fuel cur s visited).res).isUnmappedRoute = false := by
  induction fuel with
  | zero => intro cur s visited; rfl
  | succ fuel ih =>
      intro cur s visited
      rw [runFrom]
      by_cases hcur : cur = ENDName
      · simp [hcur, ExecResult.isUnmappedRoute]
      · rw [if_neg hcur]
        split
        next => rfl
        next fn hn =>
          split
          next => rfl
          next p hp =>
            split
            next => rfl
            next d he => exact ih d (merge s p) (visited ++ [cur])
            next r m he =>
              rcases example02_cond_edges cur r m he with ⟨hr, hm⟩ | ⟨hr, hm⟩ <;>
                subst hr <;> subst hm
              · split
                next hroute =>
                  have hcov := continue_next02_covered (merge s p)
                  rw [hroute] at hcov
                  cases hcov
                next d hroute => exact ih d (merge s p) (visited ++ [cur])
              · split
                next hroute =>
                  have hcov := review_decision_covered (merge s p)
                  rw [hroute] at hcov
                  cases hcov
                next d hroute => exact ih d (merge s p) (visited ++ [cur])

/-- C8: each router of the two example graphs only returns keys present
in its route map, so the unmapped-route runtime error is unreachable:
no invocation of either compiled graph, from any initial state and with
any step budget, produces the unmapped-route outcome. -/
theorem c8_routers_always_mapped :
    (∀ s : GState,
      (lookupKey [("to_confirm_fruit", "confirm_fruit"), ("to_error", "error")]
        (Example01.continue_next s)).isSome = true) ∧
    (∀ s : GState,
      (lookupKey [("to_review_fruit", "review_fruit"), ("to_error", "error")]
        (Example02.continue_next s)).isSome = true) ∧
    (∀ s : GState,
      (lookupKey [("to_confirm_fruit", "confirm_fruit"), ("to_error", "error")]
        (Example02.review_decision s)).isSome = true) ∧
    (∀ (fuel : Nat) (init : GState),
      (invoke Example01.app fuel init).isUnmappedRoute = false) ∧
    (∀ (fuel : Nat) (init : GState),
      (invoke Example02.app fuel init).isUnmappedRoute = false) :=
  ⟨continue_next01_covered, continue_next02_covered, review_decision_covered,
   fun fuel init => example01_no_unmapped fuel Example01.app.entry init [],
   fun fuel init => example02_no_unmapped fuel Example02.app.entry init []⟩

theorem runFrom_step (g : CompiledGraph) (fuel : Nat) (cur : String) (s : GState)
    (visited : List String) (fn : GState → Option GState) (p : GState) (d : String)
    (hcur : ¬ cur = ENDName)
    (hn : lookupKey g.nodes cur = some fn)
    (hp : fn s = some p)
    (he : lookupKey g.edges cur = some (Edge.static d)) :
    runFrom g (fuel + 1) cur s visited = runFrom g fuel d (merge s p) (visited ++ [cur]) := by
  simp only [runFrom, if_neg hcur, hn, hp, he]

theorem runFrom_cond_step (g : CompiledGraph) (fuel : Nat) (cur : String) (s : GState)
    (visited : List String) (fn : GState → Option GState)
    (r : GState → String) (m : List (String × String)) (p : GState)
    (hcur : ¬ cur = ENDName)
    (hn : lookupKey g.nodes cur = some fn)
    (hp : fn s = some p)
    (he : lookupKey g.edges cur = some (Edge.conditional r m)) :
    runFrom g (fuel + 1) cur s visited
      = condStep g fuel m (r (merge s p)) (merge s p) (visited ++ [cur]) := by
  simp only [runFrom, if_neg hcur, hn, hp, he, condStep]

theorem loopGraph_never_done (fuel : Nat) :
    ∀ (s : GState) (visited : List String),
      ((runFrom loopGraph fuel "a" s visited).res).isDone = false := by
  induction fuel with
  | zero => intro s visited; rfl
  | succ fuel ih =>
      intro s visited
      exact ih (merge s []) (visited ++ ["a"])

/-- C6 counterexample: in `loopGraph`, END is reachable from every node
(its only node is `"a"`, whose route map contains a destination END), yet
no invocation ever returns a final state — for every step budget the run
from the concrete initial state `{}` is still not done.  So reachability
of END from every node does not make `invoke` terminate with a final
state. -/
theorem c6_counterexample :
    loopGraph.nodes.map Prod.fst = ["a"] ∧
    ReachesEnd loopGraph "a" ∧
    ReachesEnd loopGraph ENDName ∧
    ∀ fuel : Nat, (invoke loopGraph fuel []).isDone = false := by
  refine ⟨rfl, ReachesEnd.step "a" ENDName (by decide) ReachesEnd.atEnd,
    ReachesEnd.atEnd, ?_⟩
  intro fuel
  exact loopGraph_never_done fuel [] []

theorem exec_det (g : CompiledGraph) (cur : String) (s t1 t2 : GState)
    (h1 : Exec g cur s t1) (h2 : Exec g cur s t2) : t1 = t2 := by
  induction h1 generalizing t2 with
  | atEnd s =>
      cases h2 with
      | atEnd _ => rfl
      | stepStatic _ _ _ _ _ _ hcur2 _ _ _ _ => exact absurd rfl hcur2
      | stepCond _ _ _ _ _ _ _ _ hcur2 _ _ _ _ _ => exact absurd rfl hcur2
  | stepStatic cur s fn p d t hcur hn hp he next ih =>
      cases h2 with
      | atEnd _ => exact absurd rfl hcur
      | stepStatic _ _ fn2 p2 d2 _ hcur2 hn2 hp2 he2 next2 =>
          rw [hn] at hn2
          injection hn2 with hfn
          subst hfn
          rw [hp] at hp2
          injection hp2 with hpp
          subst hpp
          rw [he] at he2
          injection he2 with hee
          injection hee with hd
          subst hd
          exact ih t2 next2
      | stepCond _ _ fn2 p2 r2 m2 d2 _ hcur2 hn2 hp2 he2 hroute2 next2 =>
          rw [he] at he2
          injection he2 with hee
          exact Edge.noConfusion hee
  | stepCond cur s fn p r m d t hcur hn hp he hroute next ih =>
      cases h2 with
      | atEnd _ => exact absurd rfl hcur
      | stepStatic _ _ fn2 p2 d2 _ hcur2 hn2 hp2 he2 next2 =>
          rw [he] at he2
          injection he2 with hee
          exact Edge.noConfusion hee
      | stepCond _ _ fn2 p2 r2 m2 d2 _ hcur2 hn2 hp2 he2 hroute2 next2 =>
          rw [hn] at hn2
          injection hn2 with hfn
          subst hfn
          rw [hp] at hp2
          injection hp2 with hpp
          subst hpp
          rw [he] at he2
          injection he2 with hee
          injection hee with hr hm
          subst hr
          subst hm
          rw [hroute] at hroute2
          injection hroute2 with hd
          subst hd
          exact ih t2 next2

theorem runFrom_done_exec (fuel : Nat) :
    ∀ (g : CompiledGraph) (cur : String) (s t : GState) (visited : List String),
      (runFrom g fuel cur s visited).res = ExecResult.done t → Exec g cur s t := by
  induction fuel with
  | zero =>
      intro g cur s t visited h
      exact ExecResult.noConfusion h
  | succ fuel ih =>
      intro g cur s t visited h
      rw [runFrom] at h
      by_cases hcur : cur = ENDName
      · rw [if_pos hcur] at h
        injection h with hst
        subst hst
        subst hcur
        exact Exec.atEnd s
      · rw [if_neg hcur] at h
        revert h
        split
        next => intro h; exact ExecResult.noConfusion h
        next fn hn =>
          split
          next => intro h; exact ExecResult.noConfusion h
          next p hp =>
            split
            next => intro h; exact ExecResult.noConfusion h
            next d he =>
              intro h
              exact Exec.stepStatic cur s fn p d t hcur hn hp he (ih g d (merge s p) t _ h)
            next r m he =>
              split
              next => intro h; exact ExecResult.noConfusion h
              next d hroute =>
                intro h
                exact Exec.stepCond cur s fn p r m d t hcur hn hp he hroute
                  (ih g d (merge s p) t _ h)

/-- C9: invocation is deterministic in the state — two executions of the
same compiled graph from the same initial state that both reach END
produce the same final state. -/
theorem c9_invoke_deterministic (g : CompiledGraph) (init t1 t2 : GState)
    (h1 : Exec g g.entry init t1) (h2 : Exec g g.entry init t2) : t1 = t2 :=
  exec_det g g.entry init t1 t2 h1 h2

/-- C9 witness: two runs of example 01 from `{init_input: "apple"}` reach
END, and the determinism theorem identifies their final states. -/
theorem c9_invoke_deterministic_witness :
    ([("init_input", "apple"), ("fruit", "apple"),
      ("final_result", "You selected apple, which is a valid fruit.")] : GState)
      = [("init_input", "apple"), ("fruit", "apple"),
         ("final_result", "You selected apple, which is a valid fruit.")] :=
  c9_invoke_deterministic Example01.app [("init_input", "apple")]
    [("init_input", "apple"), ("fruit", "apple"),
      ("final_result", "You selected apple, which is a valid fruit.")]
    [("init_input", "apple"), ("fruit", "apple"),
      ("final_result", "You selected apple, which is a valid fruit.")]
    (runFrom_done_exec 10 Example01.app Example01.app.entry [("init_input", "apple")]
      [("init_input", "apple"), ("fruit", "apple"),
        ("final_result", "You selected apple, which is a valid fruit.")] [] (by decide))
    (runFrom_done_exec 10 Example01.app Example01.app.entry [("init_input", "apple")]
      [("init_input", "apple"), ("fruit", "apple"),
        ("final_result", "You selected apple, which is a valid fruit.")] [] (by decide))

theorem ex01_error_done (fuel : Nat) (s : GState) (visited : List String) :
    (runFrom Example01.app (fuel + 2) "error" s visited).res
      = ExecResult.done (merge s [("final_result", "error")]) := rfl

theorem ex02_error_done (fuel : Nat) (s : GState) (visited : List String) :
    (runFrom Example02.app (fuel + 2) "error" s visited).res
      = ExecResult.done (merge s [("final_result", "error")]) := rfl

theorem ex01_confirm_done (fuel : Nat) (s : GState) (v : String) (visited : List String)
    (h : lookupKey s "fruit" = some v) :
    (runFrom Example01.app (fuel + 2) "confirm_fruit" s visited).res
      = ExecResult.done
          (merge s [("final_result", "You selected " ++ v ++ ", which is a valid fruit.")]) := by
  have hc : Example01.confirm_fruit s
      = some [("final_result", "You selected " ++ v ++ ", which is a valid fruit.")] := by
    unfold Example01.confirm_fruit
    rw [h]
  exact congrArg ExecOut.res (runFrom_step Example01.app (fuel + 1) "confirm_fruit" s visited
    Example01.confirm_fruit
    [("final_result", "You selected " ++ v ++ ", which is a valid fruit.")]
    ENDName (by decide) rfl hc rfl)

theorem ex02_confirm_done (fuel : Nat) (s : GState) (v : String) (visited : List String)
    (h : lookupKey s "fruit" = some v) :
    (runFrom Example02.app (fuel + 2) "confirm_fruit" s visited).res
      = ExecResult.done
          (merge s [("final_result", "You selected " ++ v ++ ", which is a valid fruit.")]) := by
  have hc : Example02.confirm_fruit s
      = some [("final_result", "You selected " ++ v ++ ", which is a valid fruit.")] := by
    unfold Example02.confirm_fruit
    rw [h]
  exact congrArg ExecOut.res (runFrom_step Example02.app (fuel + 1) "confirm_fruit" s visited
    Example02.confirm_fruit
    [("final_result", "You selected " ++ v ++ ", which is a valid fruit.")]
    ENDName (by decide) rfl hc rfl)

theorem ex01_input_fruit_shape (init : GState) :
    ∃ x, Example01.input_fruit init = some [("fruit", x)] := by
  by_cases hmem : pyLower (pyStrip ((lookupKey init "init_input").getD ""))
      ∈ (["apple", "banana", "cherry"] : List String)
  · refine ⟨pyLower (pyStrip ((lookupKey init "init_input").getD "")), ?_⟩
    unfold Example01.input_fruit
    simp [hmem]
  · refine ⟨"error", ?_⟩
    unfold Example01.input_fruit
    simp [hmem]

theorem ex02_input_fruit_shape (init : GState) :
    ∃ x, Example02.input_fruit init = some [("fruit", x)] := by
  by_cases hmem : pyLower (pyStrip ((lookupKey init "init_input").getD ""))
      ∈ (["apple", "banana", "cherry"] : List String)
  · refine ⟨pyLower (pyStrip ((lookupKey init "init_input").getD "")), ?_⟩
    unfold Example02.input_fruit
    simp [hmem]
  · refine ⟨"error", ?_⟩
    unfold Example02.input_fruit
    simp [hmem]

theorem ex01_terminates (init : GState) :
    ∃ s, invoke Example01.app 4 init = ExecResult.done s := by
  obtain ⟨x, hx⟩ := ex01_input_fruit_shape init
  have hfruit : lookupKey (merge init [("fruit", x)]) "fruit" = some x := by
    rw [lookupKey_merge]
    rfl
  have hstep1 := runFrom_cond_step Example01.app 3 "input_fruit" init []
    Example01.input_fruit Example01.continue_next
    [("to_confirm_fruit", "confirm_fruit"), ("to_error", "error")]
    [("fruit", x)] (by decide) rfl hx rfl
  by_cases hxe : x = "error"
  · refine ⟨merge (merge init [("fruit", x)]) [("final_result", "error")], ?_⟩
    have hroute : Example01.continue_next (merge init [("fruit", x)]) = "to_error" := by
      unfold Example01.continue_next
      rw [hfruit, hxe]
      simp
    show (runFrom Example01.app (3 + 1) "input_fruit" init []).res = _
    rw [hstep1]
    simp only [condStep]
    rw [hroute]
    exact ex01_error_done 1 (merge init [("fruit", x)]) ["input_fruit"]
  · refine ⟨merge (merge init [("fruit", x)])
      [("final_result", "You selected " ++ x ++ ", which is a valid fruit.")], ?_⟩
    have hroute : Example01.continue_next (merge init [("fruit", x)]) = "to_confirm_fruit" := by
      unfold Example01.continue_next
      rw [hfruit]
      simp [hxe]
    show (runFrom Example01.app (3 + 1) "input_fruit" init []).res = _
    rw [hstep1]
    simp only [condStep]
    rw [hroute]
    exact ex01_confirm_done 1 (merge init [("fruit", x)]) x ["input_fruit"] hfruit

theorem ex02_terminates (init : GState) :
    ∃ s, invoke Example02.app 5 init = ExecResult.done s := by
  obtain ⟨x, hx⟩ := ex02_input_fruit_shape init
  have hfruit1 : lookupKey (merge init [("fruit", x)]) "fruit" = some x := by
    rw [lookupKey_merge]
    rfl
  have hstep1 := runFrom_cond_step Example02.app 4 "input_fruit" init []
    Example02.input_fruit Example02.continue_next
    [("to_review_fruit", "review_fruit"), ("to_error", "error")]
    [("fruit", x)] (by decide) rfl hx rfl
  by_cases hxe : x = "error"
  · refine ⟨merge (merge init [("fruit", x)]) [("final_result", "error")], ?_⟩
    have hroute : Example02.continue_next (merge init [("fruit", x)]) = "to_error" := by
      unfold Example02.continue_next
      rw [hfruit1, hxe]
      simp
    show (runFrom Example02.app (4 + 1) "input_fruit" init []).res = _
    rw [hstep1]
    simp only [condStep]
    rw [hroute]
    exact ex02_error_done 2 (merge init [("fruit", x)]) ["input_fruit"]
  · have hroute : Example02.continue_next (merge init [("fruit", x)]) = "to_review_fruit" := by
      unfold Example02.continue_next
      rw [hfruit1]
      simp [hxe]
    have hrev : Example02.review_fruit (merge init [("fruit", x)]) = some [("fruit", x)] := by
      unfold Example02.review_fruit
      rw [hfruit1]
    have hstep2 := runFrom_cond_step Example02.app 3 "review_fruit"
      (merge init [("fruit", x)]) ["input_fruit"]
      Example02.review_fruit Example02.review_decision
      [("to_confirm_fruit", "confirm_fruit"), ("to_error", "error")]
      [("fruit", x)] (by decide) rfl hrev rfl
    have hfruit2 : lookupKey (merge (merge init [("fruit", x)]) [("fruit", x)]) "fruit"
        = some x := by
      rw [lookupKey_merge]
      rfl
    have hdec : Example02.review_decision (merge (merge init [("fruit", x)]) [("fruit", x)])
          = "to_confirm_fruit" ∨
        Example02.review_decision (merge (merge init [("fruit", x)]) [("fruit", x)])
          = "to_error" := by
      unfold Example02.review_decision
      by_cases h : lookupKey (merge (merge init [("fruit", x)]) [("fruit", x)])
          "user_confirmation" = some "yes" <;> simp [h]
    rcases hdec with hdec | hdec
    · refine ⟨merge (merge (merge init [("fruit", x)]) [("fruit", x)])
        [("final_result", "You selected " ++ x ++ ", which is a valid fruit.")], ?_⟩
      show (runFrom Example02.app (4 + 1) "input_fruit" init []).res = _
      rw [hstep1]
      simp only [condStep]
      rw [hroute]
      show (runFrom Example02.app (3 + 1) "review_fruit"
        (merge init [("fruit", x)]) ["input_fruit"]).res = _
      rw [hstep2]
      simp only [condStep]
      rw [hdec]
      exact ex02_confirm_done 1 (merge (merge init [("fruit", x)]) [("fruit", x)]) x
        ["input_fruit", "review_fruit"] hfruit2
    · refine ⟨merge (merge (merge init [("fruit", x)]) [("fruit", x)])
        [("final_result", "error")], ?_⟩
      show (runFrom Example02.app (4 + 1) "input_fruit" init []).res = _
      rw [hstep1]
      simp only [condStep]
      rw [hroute]
      show (runFrom Example02.app (3 + 1) "review_fruit"
        (merge init [("fruit", x)]) ["input_fruit"]).res = _
      rw [hstep2]
      simp only [condStep]
      rw [hdec]
      exact ex02_error_done 1 (merge (merge init [("fruit", x)]) [("fruit", x)])
        ["input_fruit", "review_fruit"]

/-- C6 (amended): for both example compiled graphs — which are acyclic —
`invoke` terminates on every initial state and returns a final state. -/
theorem c6_examples_terminate (init : GState) :
    Terminates Example01.app init ∧ Terminates Example02.app init :=
  ⟨⟨4, ex01_terminates init⟩, ⟨5, ex02_terminates init⟩⟩

end FruitGraph
